import Mathlib

/-!
Verification development for the toolify-ai-scraper repository.

Python strings are modelled as `List Char` (`Str`).  Regular-expression
based code is translated operation by operation into executable Lean
functions; numeric scores that Python computes with `int`/`float`
arithmetic on exactly representable values (halves) are modelled in `ℚ`.
Each Python module is mirrored by a Lean namespace of the same name.
-/

abbrev Str := List Char

/-- Convert a Lean string literal to the `List Char` representation. -/
def str (s : String) : Str := s.data

/-- Python's `\s` character class restricted to ASCII:
space, tab, newline, carriage return, vertical tab, form feed. -/
def pyWS (c : Char) : Bool :=
  c = ' ' || c = '\t' || c = '\n' || c = '\r' || c = Char.ofNat 11 || c = Char.ofNat 12

/-- Python's `pat in s` substring test. -/
def hasSub (pat l : Str) : Bool := decide (pat <:+: l)

/-- Helper for `collapseWS`: the flag records whether the current character
sits inside a whitespace run that already emitted its single space. -/
def collapseWSGo : Bool → Str → Str
  | _, [] => []
  | inRun, c :: cs =>
    if pyWS c then
      if inRun then collapseWSGo true cs else ' ' :: collapseWSGo true cs
    else c :: collapseWSGo false cs

/-- Python's `re.sub(r'\s+', ' ', text)`: every maximal run of whitespace
characters is replaced by a single space. -/
def collapseWS (l : Str) : Str := collapseWSGo false l

/-- Python's `text.split()`: split on whitespace runs, dropping empty pieces. -/
def pySplit (l : Str) : List Str :=
  (l.splitOnP pyWS).filter (fun p => !p.isEmpty)

/-- Python's `text.strip()`: drop leading and trailing whitespace. -/
def pyStrip (l : Str) : Str :=
  ((l.dropWhile pyWS).reverse.dropWhile pyWS).reverse

/-- Python's `s.startswith(p)` (case sensitive). -/
def startsWith (pat l : Str) : Bool := pat.isPrefixOf l

/-- Lower-case a string character by character (ASCII letters, as all the
comparisons in this code base involve ASCII search patterns). -/
def lower (l : Str) : Str := l.map Char.toLower

/-- Case-insensitive `s.startswith(p)`, used to model regex literals compiled
with `re.IGNORECASE`. -/
def startsCI (pat l : Str) : Bool := startsWith (lower pat) (lower l)

/-- Case-insensitive substring test. -/
def hasSubCI (pat l : Str) : Bool := hasSub (lower pat) (lower l)

namespace category_utils

/-- Embedding of `category_utils.clean_text`: lower-case, collapse `\s+` runs
to a single space, replace every character outside `[a-z0-9\s]` by a space,
then `' '.join(text.split())`. -/
def clean_text (text : Str) : Str :=
  let t1 := lower text
  let t2 := collapseWS t1
  let t3 := t2.map fun c =>
    if ('a' ≤ c && c ≤ 'z') || ('0' ≤ c && c ≤ '9') || pyWS c then c else ' '
  List.intercalate [' '] (pySplit t3)

/-- The `CATEGORIES` taxonomy: category name with `(keyword, weight)` pairs,
in source order (duplicate keywords are kept, as in the source). -/
def CATEGORIES : List (Str × List (Str × ℕ)) := [
  (str "Marketing & Advertising", [
    (str "ad campaign", 3), (str "ppc", 3), (str "advertising", 3),
    (str "ad management", 3), (str "media buying", 3), (str "display ads", 3),
    (str "google ads", 3), (str "facebook ads", 3), (str "ad optimization", 3),
    (str "campaign management", 2), (str "digital advertising", 2),
    (str "marketing campaign", 2), (str "ad targeting", 2),
    (str "marketing", 1), (str "advertising", 1), (str "ads", 1)]),
  (str "Social Media Marketing", [
    (str "social media management", 3), (str "social scheduling", 3),
    (str "social analytics", 3), (str "social engagement", 3),
    (str "instagram marketing", 3), (str "twitter marketing", 3),
    (str "linkedin marketing", 3), (str "tiktok marketing", 3),
    (str "social strategy", 2), (str "social content", 2),
    (str "social media", 2), (str "social platform", 2),
    (str "engagement", 1), (str "followers", 1), (str "social", 1)]),
  (str "Content Marketing", [
    (str "content creation", 3), (str "blog writing", 3), (str "copywriting", 3),
    (str "content strategy", 3), (str "content planning", 3),
    (str "article writing", 3), (str "content generation", 3),
    (str "content optimization", 2), (str "content calendar", 2),
    (str "content distribution", 2), (str "content analytics", 2),
    (str "content", 1), (str "writing", 1), (str "blog", 1)]),
  (str "Email Marketing", [
    (str "email automation", 3), (str "newsletter", 3), (str "email campaign", 3),
    (str "email sequence", 3), (str "drip campaign", 3), (str "email template", 3),
    (str "email analytics", 2), (str "email optimization", 2),
    (str "email deliverability", 2), (str "subscriber", 2),
    (str "autoresponder", 2), (str "broadcast", 2),
    (str "email", 1), (str "newsletter", 1), (str "campaign", 1)]),
  (str "SEO Tools", [
    (str "keyword research", 3), (str "rank tracking", 3), (str "backlink analysis", 3),
    (str "seo optimization", 3), (str "serp tracking", 3), (str "site audit", 3),
    (str "technical seo", 2), (str "on page seo", 2), (str "off page seo", 2),
    (str "keyword tracking", 2), (str "seo analytics", 2),
    (str "seo", 1), (str "ranking", 1), (str "search engine", 1)]),
  (str "Analytics & Insights", [
    (str "marketing analytics", 3), (str "performance tracking", 3),
    (str "conversion tracking", 3), (str "attribution", 3),
    (str "marketing metrics", 3), (str "roi tracking", 3),
    (str "data visualization", 2), (str "reporting", 2),
    (str "dashboard", 2), (str "metrics", 2), (str "kpi", 2),
    (str "analytics", 1), (str "tracking", 1), (str "insights", 1)]),
  (str "Marketing Automation", [
    (str "workflow automation", 3), (str "crm integration", 3),
    (str "marketing workflow", 3), (str "lead nurturing", 3),
    (str "automated campaign", 3), (str "trigger", 3),
    (str "marketing pipeline", 2), (str "lead scoring", 2),
    (str "automation rules", 2), (str "marketing tasks", 2),
    (str "automation", 1), (str "workflow", 1), (str "integration", 1)]),
  (str "Visual Marketing", [
    (str "video generation", 3), (str "video creation", 3), (str "video marketing", 3),
    (str "social media image", 3), (str "ad creative", 3), (str "marketing design", 3),
    (str "thumbnail generator", 3), (str "visual content", 3), (str "video production", 3),
    (str "banner design", 2), (str "social graphic", 2), (str "video editing", 2),
    (str "marketing template", 2), (str "brand visual", 2), (str "video content", 2),
    (str "design", 1), (str "visual", 1), (str "creative", 1), (str "video", 1)])]

/-- The explicit marketing-context terms checked first in every category loop. -/
def marketing_terms : List Str :=
  [str "marketing", str "advertis", str "promotion", str "campaign", str "brand"]

/-- The per-category marketing-feature bonus terms. -/
def marketing_features : List (Str × List Str) := [
  (str "Content Marketing",
    [str "document", str "pdf", str "text", str "content", str "write", str "edit"]),
  (str "Visual Marketing",
    [str "video", str "image", str "visual", str "design", str "creative"]),
  (str "Analytics & Insights",
    [str "analyze", str "track", str "measure", str "report", str "insight"]),
  (str "Marketing Automation",
    [str "automate", str "workflow", str "process", str "generate"]),
  (str "SEO Tools",
    [str "search", str "keyword", str "rank", str "traffic", str "seo"]),
  (str "Social Media Marketing",
    [str "social", str "post", str "share", str "engage", str "follower"]),
  (str "Email Marketing",
    [str "email", str "newsletter", str "sequence", str "broadcast"]),
  (str "Marketing & Advertising",
    [str "ad", str "campaign", str "conversion", str "target"])]

/-- Terms triggering the document-processing default in `categorize_tool`. -/
def doc_terms : List Str :=
  [str "document", str "pdf", str "text processing", str "convert"]

/-- The marketing-context loop: `total_score += 2` for each member of
`marketing_terms` occurring in the combined text. -/
def context_score (combined : Str) : ℚ :=
  marketing_terms.foldl
    (fun total term => if hasSub term combined then total + 2 else total) 0

/-- One keyword's contribution: the keyword is cleaned, then exactly one of
the three tiers fires — exact space-delimited match in the combined text
(`weight * 2`), substring of the name (`weight * 1.5`), substring of the
description (`weight`) — otherwise nothing. -/
def keyword_tier (name description combined : Str) (kw : Str) (weight : ℕ) : ℚ :=
  let keyword := clean_text kw
  if hasSub (' ' :: (keyword ++ [' '])) (' ' :: (combined ++ [' '])) then (weight : ℚ) * 2
  else if hasSub keyword name then (weight : ℚ) * 1.5
  else if hasSub keyword description then (weight : ℚ)
  else 0

/-- The keyword loop of `categorize_tool` for one category. -/
def keywords_score (name description combined : Str) (kws : List (Str × ℕ)) : ℚ :=
  kws.foldl (fun total p => total + keyword_tier name description combined p.1 p.2) 0

/-- The marketing-feature bonus loop: `total_score += 1` per feature term
present in the combined text. -/
def features_score (combined : Str) (feats : List Str) : ℚ :=
  feats.foldl (fun total f => if hasSub f combined then total + 1 else total) 0

/-- The total score `categorize_tool` computes for one category: the
marketing-context loop, then the keyword loop, then (when the category is
listed in `marketing_features`) the feature bonus loop. -/
def category_total (name description combined : Str) (cat : Str)
    (kws : List (Str × ℕ)) : ℚ :=
  context_score combined + keywords_score name description combined kws +
    (match List.lookup cat marketing_features with
     | some feats => features_score combined feats
     | none => 0)

/-- The `matches` dictionary, in insertion order: categories whose total
score is positive, paired with that score. -/
def matches_list (name description combined : Str) : List (Str × ℚ) :=
  CATEGORIES.foldl
    (fun ms p =>
      let t := category_total name description combined p.1 p.2
      if t > 0 then ms ++ [(p.1, t)] else ms) []

/-- Python's `max(items, key=lambda x: x[1])`: first item with maximal value
(later items replace the current best only when strictly greater). -/
def max_match : List (Str × ℚ) → Option (Str × ℚ)
  | [] => none
  | m :: ms => some (ms.foldl (fun best x => if x.2 > best.2 then x else best) m)

/-- The combined text `f"{name} {description}"` built from cleaned inputs. -/
def combined_of (name description : Str) : Str :=
  clean_text name ++ ' ' :: clean_text description

/-- Embedding of `category_utils.categorize_tool`. -/
def categorize_tool (name description : Str) : Str :=
  let name' := clean_text name
  let description' := clean_text description
  let combined_text := name' ++ ' ' :: description'
  match max_match (matches_list name' description' combined_text) with
  | some best =>
    if best.2 ≥ 3 then best.1
    else if doc_terms.any (fun t => hasSub t combined_text) then str "Content Marketing"
    else str "Marketing & Advertising"
  | none => str "Marketing & Advertising"

/-- The score `categorize_tool` assigns to a given category of the taxonomy
(`none` when `cat` is not a category key). -/
def category_score_of (name description cat : Str) : Option ℚ :=
  (List.lookup cat CATEGORIES).map
    (category_total (clean_text name) (clean_text description)
      (combined_of name description) cat)

/-- Spec-side definition (from the claim's words, for comparison with the
code): the sum over a category's `(keyword, weight)` pairs of exactly one
tier contribution per pair. -/
def claimed_tier_sum (name description combined : Str) (kws : List (Str × ℕ)) : ℚ :=
  (kws.map (fun p => keyword_tier name description combined p.1 p.2)).sum

/-- Spec-side definition of the score C1 claims for a category: only the
keyword tier contributions, nothing else. -/
def claimed_score_of (name description cat : Str) : Option ℚ :=
  (List.lookup cat CATEGORIES).map
    (claimed_tier_sum (clean_text name) (clean_text description)
      (combined_of name description))

/-- Spec-side context total: 2 per marketing-context term present. -/
def claimed_context_sum (combined : Str) : ℚ :=
  ((marketing_terms.filter (fun t => hasSub t combined)).length : ℚ) * 2

/-- Spec-side feature bonus: 1 per feature term of the category present. -/
def claimed_feature_sum (combined : Str) (feats : List Str) : ℚ :=
  ((feats.filter (fun t => hasSub t combined)).length : ℚ)

end category_utils

namespace data_utils

/-- Python's `\w` character class restricted to ASCII: `[a-zA-Z0-9_]`. -/
def isWordChar (c : Char) : Bool :=
  ('a' ≤ c && c ≤ 'z') || ('A' ≤ c && c ≤ 'Z') || ('0' ≤ c && c ≤ '9') || c = '_'

/-- Embedding of `data_utils.clean_text`: empty input maps to empty output;
otherwise collapse `\s+` runs, delete every character outside
`[\w\s.,!?()-]`, and strip. -/
def clean_text (text : Str) : Str :=
  if text.isEmpty then []
  else
    let t1 := collapseWS text
    let t2 := t1.filter fun c =>
      isWordChar c || pyWS c || c = '.' || c = ',' || c = '!' || c = '?' ||
        c = '(' || c = ')' || c = '-'
    pyStrip t2

/-- Leftmost match of `re.search`: try the position matcher on every suffix
of the input, left to right. -/
def reScan (m : Str → Option α) : Str → Option α
  | [] => m []
  | c :: cs =>
    match m (c :: cs) with
    | some r => some r
    | none => reScan m cs

/-- Python's `$` in non-MULTILINE mode: matches at the end of the string or
just before a single trailing newline. `u` is the remaining suffix. -/
def endDollar (u : Str) : Bool := u.isEmpty || u = ['\n']

/-- The lazy group `(.*?)(?=...)` under `re.DOTALL`: consume characters one
at a time until the lookahead holds at the remaining suffix (the lookahead
always holds at the end of the string, where `$` applies). -/
def lazyUntil (look : Str → Bool) : Str → Str
  | [] => []
  | c :: cs => if look (c :: cs) then [] else c :: lazyUntil look cs

/-- Lookahead `(?=how to use|$)` (IGNORECASE). -/
def lookHowToUse (u : Str) : Bool := startsCI (str "how to use") u || endDollar u

/-- Lookahead `(?=Core Features|$)` (IGNORECASE). -/
def lookCoreFeatures (u : Str) : Bool := startsCI (str "core features") u || endDollar u

/-- Lookahead `(?=Use Cases|FAQ|Support Email|$)` (IGNORECASE). -/
def lookFeaturesEnd (u : Str) : Bool :=
  startsCI (str "use cases") u || startsCI (str "faq") u ||
    startsCI (str "support email") u || endDollar u

/-- Lookahead `(?=FAQ|Support Email|$)` (IGNORECASE). -/
def lookUseCasesEnd (u : Str) : Bool :=
  startsCI (str "faq") u || startsCI (str "support email") u || endDollar u

/-- Position matcher for `r'what is .+?\s+(.*?)(?=how to use|$)'` with
DOTALL and IGNORECASE: the literal anchor `what is ` must match here, then
the lazy `.+?` runs up to the first whitespace character found at offset
one or later, `\s+` greedily eats that whitespace run, and the lazy group
extends until the lookahead holds. -/
def matchShortAt (t : Str) : Option Str :=
  if startsCI (str "what is ") t then
    match t.drop 8 with
    | [] => none
    | _ :: rest =>
      match rest.findIdx? pyWS with
      | none => none
      | some k => some (lazyUntil lookHowToUse ((rest.drop k).dropWhile pyWS))
  else none

/-- Position matcher for `r'how to use .+?\s+(.*?)(?=Core Features|$)'`. -/
def matchHowAt (t : Str) : Option Str :=
  if startsCI (str "how to use ") t then
    match t.drop 11 with
    | [] => none
    | _ :: rest =>
      match rest.findIdx? pyWS with
      | none => none
      | some k => some (lazyUntil lookCoreFeatures ((rest.drop k).dropWhile pyWS))
  else none

/-- Position matcher for `r"Core Features\s*(.*?)(?=Use Cases|FAQ|Support Email|$)"`:
anchor, then greedy `\s*`, then the lazy group up to the lookahead. -/
def matchFeaturesAt (t : Str) : Option Str :=
  if startsCI (str "core features") t then
    some (lazyUntil lookFeaturesEnd ((t.drop 13).dropWhile pyWS))
  else none

/-- Position matcher for `r"Use Cases\s*(.*?)(?=FAQ|Support Email|$)"`. -/
def matchUseCasesAt (t : Str) : Option Str :=
  if startsCI (str "use cases") t then
    some (lazyUntil lookUseCasesEnd ((t.drop 9).dropWhile pyWS))
  else none

/-- Fuel-indexed worker for `splitRe`; the fuel dominates the input length,
and each step consumes at least one character. -/
def splitReGo (delim : Str → Option ℕ) : ℕ → Str → Str → List Str
  | _, acc, [] => [acc.reverse]
  | 0, acc, l => [acc.reverse ++ l]
  | fuel + 1, acc, c :: cs =>
    match delim (c :: cs) with
    | some n =>
      if n = 0 then splitReGo delim fuel (c :: acc) cs
      else acc.reverse :: splitReGo delim fuel [] ((c :: cs).drop n)
    | none => splitReGo delim fuel (c :: acc) cs

/-- `re.split` against a delimiter recogniser: `delim` reports the length of
the (leftmost, greedy) delimiter match at the current position, if any. -/
def splitRe (delim : Str → Option ℕ) (l : Str) : List Str :=
  splitReGo delim l.length [] l

/-- Delimiter recogniser for `r'\s{2,}|\d+\.'`: a run of at least two
whitespace characters, or else a maximal digit run followed by a dot. -/
def featDelim (l : Str) : Option ℕ :=
  let ws := (l.takeWhile pyWS).length
  if ws ≥ 2 then some ws
  else
    let ds := (l.takeWhile Char.isDigit).length
    if ds ≥ 1 && startsWith (str ".") (l.drop ds) then some (ds + 1) else none

/-- Delimiter recogniser for `r'#\d+|\s{2,}'`: a hash followed by at least
one digit, or else a run of at least two whitespace characters. -/
def useDelim (l : Str) : Option ℕ :=
  if startsWith (str "#") l then
    let ds := ((l.drop 1).takeWhile Char.isDigit).length
    if ds ≥ 1 then some (ds + 1) else none
  else
    let ws := (l.takeWhile pyWS).length
    if ws ≥ 2 then some ws else none

/-- Characters admitted by the `[^"\s]+` captures of the link patterns. -/
def validPathChar (c : Char) : Bool := !(c = '"' || pyWS c)

/-- Greedy `[^"\s]+` capture (possibly empty here; emptiness is checked by
the callers, as the regex requires at least one character). -/
def takePath (t : Str) : Str := t.takeWhile validPathChar

/-- Position matcher for `r'LIT([^"\s]+)'` (IGNORECASE literal). -/
def matchLitPath (lit : Str) (t : Str) : Option Str :=
  if startsCI lit t then
    let p := takePath (t.drop lit.length)
    if p.isEmpty then none else some p
  else none

/-- Position matcher for `r'LIT(?:SEG)?([^"\s]+)'`: the optional segment is
greedy, and is given back when no capture character follows it. -/
def matchOptSegPath (lit seg : Str) (t : Str) : Option Str :=
  if startsCI lit t then
    let r := t.drop lit.length
    if startsCI seg r && !(takePath (r.drop seg.length)).isEmpty then
      some (takePath (r.drop seg.length))
    else
      let p := takePath r
      if p.isEmpty then none else some p
  else none

/-- Position matcher for `r'discord(?:\.gg|app\.com)/([^"\s]+)'`. -/
def matchDiscordAt (t : Str) : Option Str :=
  if startsCI (str "discord") t then
    let r := t.drop 7
    if startsCI (str ".gg/") r then
      let p := takePath (r.drop 4)
      if p.isEmpty then none else some p
    else if startsCI (str "app.com/") r then
      let p := takePath (r.drop 8)
      if p.isEmpty then none else some p
    else none
  else none

/-- Position matcher for `r'LIT\s*(https?://[^"\s]+)'` (the login and
sign-up link patterns): greedy whitespace, then the captured URL must carry
an `http(s)://` scheme and at least one further character. -/
def matchSchemeURL (lit : Str) (t : Str) : Option Str :=
  if startsCI lit t then
    let r := (t.drop lit.length).dropWhile pyWS
    if startsCI (str "https://") r then
      let p := takePath r
      if p.length ≥ 9 then some p else none
    else if startsCI (str "http://") r then
      let p := takePath r
      if p.length ≥ 8 then some p else none
    else none
  else none

/-- Position matcher for `r'contact us page\s*\((https?://[^)]+)\)'`. -/
def matchContactAt (t : Str) : Option Str :=
  if startsCI (str "contact us page") t then
    match (t.drop 15).dropWhile pyWS with
    | '(' :: r2 =>
      let g := r2.takeWhile (fun c => c ≠ ')')
      if (startsCI (str "https://") g && g.length ≥ 9 ||
            startsCI (str "http://") g && g.length ≥ 8) &&
          startsWith (str ")") (r2.drop g.length) then
        some g
      else none
    | _ => none
  else none

/-- The social-link URL reconstruction of `extract_description_parts`:
groups not already carrying a scheme are prefixed with the platform domain. -/
def linkOf (g : Option Str) (domain : Str) : Str :=
  match g with
  | some url =>
    if startsWith (str "http://") url || startsWith (str "https://") url then url
    else str "https://" ++ domain ++ '/' :: url
  | none => []

/-- The result dictionary of `extract_description_parts`. -/
structure DescriptionParts where
  short_description : Str
  how_to_use : Str
  features : List Str
  use_cases : List Str
  discord_link : Str
  facebook_link : Str
  twitter_link : Str
  linkedin_link : Str
  youtube_link : Str
  instagram_link : Str
  login_link : Str
  signup_link : Str
  contact_link : Str
deriving Repr, DecidableEq

/-- The initial `parts` dictionary: every section empty. -/
def emptyParts : DescriptionParts :=
  ⟨[], [], [], [], [], [], [], [], [], [], [], [], []⟩

/-- Embedding of `data_utils.extract_description_parts`. -/
def extract_description_parts (description : Str) : DescriptionParts :=
  if description.isEmpty then emptyParts
  else
    { short_description :=
        match reScan matchShortAt description with
        | some g => clean_text g
        | none => []
      how_to_use :=
        match reScan matchHowAt description with
        | some g => clean_text g
        | none => []
      features :=
        match reScan matchFeaturesAt description with
        | some g => ((splitRe featDelim g).map clean_text).filter (fun x => !x.isEmpty)
        | none => []
      use_cases :=
        match reScan matchUseCasesAt description with
        | some g => ((splitRe useDelim g).map clean_text).filter (fun x => !x.isEmpty)
        | none => []
      discord_link := linkOf (reScan matchDiscordAt description) (str "discord.gg")
      facebook_link :=
        linkOf (reScan (matchLitPath (str "facebook.com/")) description) (str "facebook.com")
      twitter_link :=
        linkOf (reScan (matchLitPath (str "twitter.com/")) description) (str "twitter.com")
      linkedin_link :=
        linkOf (reScan (matchOptSegPath (str "linkedin.com/") (str "company/")) description)
          (str "linkedin.com")
      youtube_link :=
        linkOf (reScan (matchOptSegPath (str "youtube.com/") (str "@")) description)
          (str "youtube.com")
      instagram_link :=
        linkOf (reScan (matchLitPath (str "instagram.com/")) description) (str "instagram.com")
      login_link :=
        match reScan (matchSchemeURL (str "Login Link:")) description with
        | some g => g
        | none => []
      signup_link :=
        match reScan (matchSchemeURL (str "Sign up Link:")) description with
        | some g => g
        | none => []
      contact_link :=
        match reScan matchContactAt description with
        | some g => g
        | none => [] }

/-- The placeholder logo asset tested by `clean_url`. -/
def defaultLogoAsset : Str := str "logo.f3a91ce.png"

/-- Embedding of `data_utils.clean_url`: empty input stays empty; the input
is stripped; URLs containing the default logo asset are discarded; `/`-
prefixed paths gain the `https://www.toolify.ai` host; `//`-prefixed URLs
gain `https:` (unreachable after the previous step); anything still missing
an `http(s)://` scheme is discarded. -/
def clean_url (url : Str) : Str :=
  if url.isEmpty then []
  else
    let url1 := pyStrip url
    if hasSub defaultLogoAsset url1 then []
    else
      let url2 := if startsWith (str "/") url1 then str "https://www.toolify.ai" ++ url1 else url1
      let url3 := if startsWith (str "//") url2 then str "https:" ++ url2 else url2
      if startsWith (str "http://") url3 || startsWith (str "https://") url3 then url3
      else []

/-- Python's `s.replace(pat, rep)`: replace every non-overlapping occurrence
left to right (the patterns used here are never empty). -/
def replaceList (pat rep : Str) : Str → Str
  | [] => []
  | c :: cs =>
    if pat.length ≥ 1 && pat.isPrefixOf (c :: cs) then
      rep ++ replaceList pat rep (cs.drop (pat.length - 1))
    else c :: replaceList pat rep cs
termination_by l => l.length
decreasing_by
  · simp only [List.length_cons, List.length_drop]
    omega
  · simp

/-- The `VALID_CATEGORIES` set of `get_llm_category`. -/
def VALID_CATEGORIES : List Str := [
  str "Marketing & Advertising",
  str "Social Media Marketing",
  str "Content Marketing",
  str "Email Marketing",
  str "SEO Tools",
  str "Analytics & Insights",
  str "Marketing Automation",
  str "Visual Marketing",
  str "Other"]

/-- Embedding of `data_utils.get_llm_category`.  The outcome of the LLM
extraction call is abstracted as `llmResult` (`none` models an exception or
a falsy response); the deterministic keyword path runs first and returns
without consulting the LLM when it yields anything other than `"Other"`. -/
def get_llm_category (llmResult : Option Str) (name description : Str) : Str :=
  let keyword_category := category_utils.categorize_tool name description
  if keyword_category ≠ str "Other" then keyword_category
  else
    match llmResult with
    | none => str "Other"
    | some result0 =>
      if result0.isEmpty then str "Other"
      else
        let result1 := pyStrip result0
        if result1 ∈ VALID_CATEGORIES then result1
        else
          let r2 := replaceList (str "Marketing and Advertising")
            (str "Marketing & Advertising") result1
          let r3 := replaceList (str "Content and Media") (str "Content & Media") r2
          let r4 := replaceList (str "Analytics and Scheduling")
            (str "Analytics & Scheduling") r3
          let r5 := replaceList (str "Image and Graphics") (str "Image & Graphics") r4
          let r6 :=
            if !startsWith (str "AI ") r5 && r5 ≠ str "Development Tools" &&
                r5 ≠ str "Other" then
              str "AI " ++ r5
            else r5
          if r6 ∈ VALID_CATEGORIES then r6 else str "Other"

end data_utils

namespace main

/-- One logo candidate dictionary as built in `extract_tool_details`:
absolute image URL, score, and dimensions.  Dimensions are JavaScript
numbers clamped to at least 1 by `get_image_dimensions`; they are modelled
in `ℚ`, which represents all values occurring exactly. -/
structure LogoCandidate where
  url : Str
  score : ℕ
  width : ℚ
  height : ℚ
deriving Repr, DecidableEq

/-- The logo-indicator terms of both scoring blocks. -/
def logo_terms : List Str := [str "logo", str "brand", str "icon"]

/-- The raw data about one `img` element that the scoring loops read:
`src` is the absolutized URL (absolutization never changes whether a URL
starts with `data:image/`, so the data-URI filter commutes with it),
`alt` the alt text, and the width/height pair its dimensions. -/
structure RawImg where
  src : Str
  alt : Str
  width : ℚ
  height : ℚ
deriving Repr, DecidableEq

/-- The score computed for a candidate by the primary block (the tool's own
website, main.py lines 256-276): +5 for a logo/brand/icon term in url or
alt, +8 for the tool name in alt or url, +3 for a near-square aspect ratio,
+2 for a shorter dimension between 32 and 200. -/
def primary_score (name : Str) (i : RawImg) : ℕ :=
  (if logo_terms.any (fun term => hasSub term (lower i.src) || hasSub term (lower i.alt))
    then 5 else 0) +
  (if hasSub (lower name) (lower i.alt) || hasSub (lower name) (lower i.src)
    then 8 else 0) +
  (if (0.8 : ℚ) ≤ i.width / i.height ∧ i.width / i.height ≤ 1.2 then 3 else 0) +
  (if (32 : ℚ) ≤ min i.width i.height ∧ min i.width i.height ≤ 200 then 2 else 0)

/-- Candidate filtering of the primary block: skip empty or `data:image/`
sources, compute the score, and retain the candidate when the score
exceeds 5. -/
def consider_primary (name : Str) (i : RawImg) : Option LogoCandidate :=
  if i.src.isEmpty || startsWith (str "data:image/") i.src then none
  else
    let score := primary_score name i
    if score > 5 then some ⟨i.src, score, i.width, i.height⟩ else none

/-- The score computed by the fallback block (toolify.ai content area,
main.py lines 342-349): the score starts at 8 when the tool name occurs in
the alt text and the URL is on `cdn-images.toolify.ai`, +5 for a
logo/brand/icon term, and +3 when the shorter dimension lies in [32, 200]
and the aspect ratio in [0.8, 1.2] simultaneously. -/
def fallback_score (name : Str) (i : RawImg) : ℕ :=
  (if hasSub (lower name) (lower i.alt) && hasSub (str "cdn-images.toolify.ai") i.src
    then 8 else 0) +
  (if logo_terms.any (fun term => hasSub term (lower i.src) || hasSub term (lower i.alt))
    then 5 else 0) +
  (if ((32 : ℚ) ≤ min i.width i.height ∧ min i.width i.height ≤ 200) ∧
      ((0.8 : ℚ) ≤ i.width / i.height ∧ i.width / i.height ≤ 1.2) then 3 else 0)

/-- Candidate filtering of the fallback block: skip empty or data-URI
sources, skip images whose longest side is below 32 pixels, then retain
when the score exceeds 5. -/
def consider_fallback (name : Str) (i : RawImg) : Option LogoCandidate :=
  if i.src.isEmpty || startsWith (str "data:image/") i.src then none
  else if max i.width i.height < 32 then none
  else
    let score := fallback_score name i
    if score > 5 then some ⟨i.src, score, i.width, i.height⟩ else none

/-- The comparison under which both blocks sort their candidates:
`sort(key=lambda x: (x['score'], -abs(w - h)), reverse=True)`, i.e.
descending score, ties broken by ascending `|width - height|`. -/
def sortKeyLE (a b : LogoCandidate) : Bool :=
  decide (b.score < a.score ∨
    (b.score = a.score ∧ |a.width - a.height| ≤ |b.width - b.height|))

/-- Best-candidate selection shared by both blocks: stable sort by the
descending key, then take the first element (`none` on an empty list). -/
def select_best (cands : List LogoCandidate) : Option LogoCandidate :=
  if cands.isEmpty then none else (cands.mergeSort sortKeyLE).head?

/-- The candidate list the primary block accumulates over the page's
images, in document order. -/
def primary_candidates (name : Str) (imgs : List RawImg) : List LogoCandidate :=
  imgs.filterMap (consider_primary name)

/-- The candidate list the fallback block accumulates. -/
def fallback_candidates (name : Str) (imgs : List RawImg) : List LogoCandidate :=
  imgs.filterMap (consider_fallback name)

/-- The `logo_url` the primary block produces, if any. -/
def primary_logo (name : Str) (imgs : List RawImg) : Option Str :=
  (select_best (primary_candidates name imgs)).map LogoCandidate.url

/-- The `logo_url` the fallback block produces, if any. -/
def fallback_logo (name : Str) (imgs : List RawImg) : Option Str :=
  (select_best (fallback_candidates name imgs)).map LogoCandidate.url

/-- Spec-side definition (C4's words): a candidate's score is the sum of +5
for a logo/brand/icon term in url or alt text, +8 for the tool name in alt
or url, +3 for a width/height ratio within [0.8, 1.2], and +2 for a shorter
dimension within [32, 200]. -/
def claimed_logo_score (name : Str) (i : RawImg) : ℕ :=
  (if logo_terms.any (fun term => hasSub term (lower i.src) || hasSub term (lower i.alt))
    then 5 else 0) +
  (if hasSub (lower name) (lower i.alt) || hasSub (lower name) (lower i.src)
    then 8 else 0) +
  (if (0.8 : ℚ) ≤ i.width / i.height ∧ i.width / i.height ≤ 1.2 then 3 else 0) +
  (if (32 : ℚ) ≤ min i.width i.height ∧ min i.width i.height ≤ 200 then 2 else 0)

/-- Spec-side retention predicate (C4's words): kept iff the url is not a
data-URI, the longest side is at least 32 pixels, and the score exceeds 5. -/
def claimed_retained (name : Str) (i : RawImg) : Prop :=
  ¬ startsWith (str "data:image/") i.src = true ∧
    (32 : ℚ) ≤ max i.width i.height ∧ claimed_logo_score name i > 5

/-- The per-URL processing loop of `scrape_tools` (main.py lines 553-580):
for each remaining URL, extraction either yields a record — appended to
`tools`, with the URL added to `processed_urls` — or yields nothing and the
URL is skipped.  Records are paired with their source URL to state
provenance properties. -/
def process_urls (extract : Str → Option α) :
    List Str → List (Str × α) → List Str → List (Str × α) × List Str
  | [], tools, processed => (tools, processed)
  | u :: rest, tools, processed =>
    match extract u with
    | some d => process_urls extract rest (tools ++ [(u, d)]) (processed ++ [u])
    | none => process_urls extract rest tools processed

/-- The controller logic of `scrape_tools` after checkpoint load: URLs
already in `processed_urls` are filtered out, then the loop runs over the
remaining URLs. -/
def scrape_tools_run (extract : Str → Option α) (tool_urls : List Str)
    (tools₀ : List (Str × α)) (processed₀ : List Str) :
    List (Str × α) × List Str :=
  process_urls extract (tool_urls.filter (fun u => decide (u ∉ processed₀))) tools₀ processed₀

/-- Modelled from Python call semantics, not from a reachable code path:
main.py line 376 invokes `categorize_tool(tool_data['full_description'])`
with one argument although `category_utils.categorize_tool(name,
description)` declares two required parameters, so the call raises
`TypeError` before the function body runs; the surrounding `try` of
`extract_tool_details` catches it and returns `{}`. -/
def categorize_call_in_main (_full_description : Str) : Except Str Str :=
  .error (str "TypeError: categorize_tool() missing 1 required positional argument: 'description'")

end main

namespace scraper_utils

/-- The interface of the HTML element handed to `extract_with_fallback`:
`select_one` returns the stripped text of the first CSS match (`none` when
no element matches), `xpath` the list of strings an XPath query yields;
`.error` models an exception raised during either call (including during
text extraction). -/
structure HtmlElement where
  select_one : Str → Except Unit (Option Str)
  xpath : Str → Except Unit (List Str)

/-- Embedding of `scraper_utils.extract_with_fallback`: CSS first — a found
element returns its text, or `'N/A'` when that text is empty; otherwise the
XPath fallback (when configured and non-empty) joins its results with
spaces and strips, again defaulting to `'N/A'` when empty; every failure or
exception path returns `'N/A'`. -/
def extract_with_fallback (e : HtmlElement) (css : Str) (xp : Option Str) : Str :=
  match e.select_one css with
  | .error _ => str "N/A"
  | .ok (some txt) => if txt.isEmpty then str "N/A" else txt
  | .ok none =>
    match xp with
    | some x =>
      if x.isEmpty then str "N/A"
      else
        match e.xpath x with
        | .error _ => str "N/A"
        | .ok content =>
          if content.isEmpty then str "N/A"
          else
            let joined := pyStrip (List.intercalate [' '] content)
            if joined.isEmpty then str "N/A" else joined
    | none => str "N/A"

/-- C2's failure condition on the CSS side: the selector yields no element,
yields an element with empty text, or raises. -/
def cssYieldsNothing (e : HtmlElement) (css : Str) : Prop :=
  e.select_one css = .error () ∨ e.select_one css = .ok none ∨
    e.select_one css = .ok (some [])

/-- C2's failure condition on the XPath side: no fallback is configured, or
the query raises, or the joined and stripped result is empty. -/
def xpathYieldsNothing (e : HtmlElement) (xp : Option Str) : Prop :=
  ∀ x, xp = some x → ¬ x.isEmpty = true →
    e.xpath x = .error () ∨
      ∃ l, e.xpath x = .ok l ∧ pyStrip (List.intercalate [' '] l) = []

end scraper_utils

/-!
## Helper lemmas
-/

theorem hasSub_iff {pat l : Str} : hasSub pat l = true ↔ pat <:+: l := by
  simp [hasSub]

theorem startsWith_iff {pat l : Str} : startsWith pat l = true ↔ pat <+: l := by
  simp [startsWith]

theorem startsWith_head {pre s : Str} (h : startsWith pre s = true) {c : Char}
    (hc : pre.head? = some c) : s.head? = some c := by
  rcases startsWith_iff.mp h with ⟨t, rfl⟩
  cases pre with
  | nil => simp at hc
  | cons a pre' => simp_all

theorem foldl_best_mem :
    ∀ (ms : List (Str × ℚ)) (m : Str × ℚ),
      ms.foldl (fun best x => if x.2 > best.2 then x else best) m ∈ m :: ms := by
  intro ms
  induction ms with
  | nil => intro m; simp
  | cons x xs ih =>
    intro m
    simp only [List.foldl_cons]
    rcases List.mem_cons.mp (ih (if x.2 > m.2 then x else m)) with h | h
    · rw [h]
      split <;> simp
    · simp [h]

theorem max_match_mem {l : List (Str × ℚ)} {b : Str × ℚ}
    (h : category_utils.max_match l = some b) : b ∈ l := by
  cases l with
  | nil => simp [category_utils.max_match] at h
  | cons m ms =>
    simp only [category_utils.max_match, Option.some.injEq] at h
    subst h
    exact foldl_best_mem ms m

theorem mem_matches_keys {n d c : Str} {p : Str × ℚ}
    (h : p ∈ category_utils.matches_list n d c) :
    p.1 ∈ category_utils.CATEGORIES.map Prod.fst := by
  have aux : ∀ (cats : List (Str × List (Str × ℕ))) (acc : List (Str × ℚ)),
      p ∈ cats.foldl (fun ms q =>
        let t := category_utils.category_total n d c q.1 q.2
        if t > 0 then ms ++ [(q.1, t)] else ms) acc →
      p ∈ acc ∨ p.1 ∈ cats.map Prod.fst := by
    intro cats
    induction cats with
    | nil => intro acc h; exact Or.inl h
    | cons q cats ih =>
      intro acc h
      simp only [List.foldl_cons] at h
      rcases ih _ h with h' | h'
      · split at h'
        · rcases List.mem_append.mp h' with h'' | h''
          · exact Or.inl h''
          · simp at h''
            right
            simp [h'']
        · exact Or.inl h'
      · right
        simp [h']
  rcases aux _ _ h with h' | h'
  · simp at h'
  · exact h'

theorem context_score_aux (combined : Str) :
    ∀ (terms : List Str) (a : ℚ),
      terms.foldl (fun total term => if hasSub term combined then total + 2 else total) a =
        a + ((terms.filter (fun t => hasSub t combined)).length : ℚ) * 2
  | [], a => by simp
  | x :: xs, a => by
    simp only [List.foldl_cons, List.filter_cons]
    by_cases hx : hasSub x combined
    · rw [if_pos hx, if_pos hx, context_score_aux combined xs (a + 2)]
      push_cast [List.length_cons]
      ring
    · rw [if_neg hx, if_neg hx, context_score_aux combined xs a]

theorem context_score_eq (combined : Str) :
    category_utils.context_score combined = category_utils.claimed_context_sum combined := by
  unfold category_utils.context_score category_utils.claimed_context_sum
  rw [context_score_aux]
  ring

theorem keywords_score_aux (n d c : Str) :
    ∀ (kws : List (Str × ℕ)) (a : ℚ),
      kws.foldl (fun total p => total + category_utils.keyword_tier n d c p.1 p.2) a =
        a + (kws.map (fun p => category_utils.keyword_tier n d c p.1 p.2)).sum
  | [], a => by simp
  | x :: xs, a => by
    simp only [List.foldl_cons, List.map_cons, List.sum_cons]
    rw [keywords_score_aux n d c xs (a + category_utils.keyword_tier n d c x.1 x.2)]
    ring

theorem keywords_score_eq (n d c : Str) (kws : List (Str × ℕ)) :
    category_utils.keywords_score n d c kws = category_utils.claimed_tier_sum n d c kws := by
  unfold category_utils.keywords_score category_utils.claimed_tier_sum
  rw [keywords_score_aux]
  ring

theorem features_score_aux (combined : Str) :
    ∀ (feats : List Str) (a : ℚ),
      feats.foldl (fun total f => if hasSub f combined then total + 1 else total) a =
        a + ((feats.filter (fun t => hasSub t combined)).length : ℚ)
  | [], a => by simp
  | x :: xs, a => by
    simp only [List.foldl_cons, List.filter_cons]
    by_cases hx : hasSub x combined
    · rw [if_pos hx, if_pos hx, features_score_aux combined xs (a + 1)]
      push_cast [List.length_cons]
      ring
    · rw [if_neg hx, if_neg hx, features_score_aux combined xs a]

theorem features_score_eq (combined : Str) (feats : List Str) :
    category_utils.features_score combined feats =
      category_utils.claimed_feature_sum combined feats := by
  unfold category_utils.features_score category_utils.claimed_feature_sum
  rw [features_score_aux]
  ring

/-!
## C2 — extraction misses yield the `'N/A'` sentinel
-/

/-- C2: for every document element, CSS selector and optional XPath
selector, `extract_with_fallback` returns `'N/A'` whenever the CSS selector
yields no element or empty text and the XPath fallback (if provided) also
yields nothing — including when any internal exception occurs — and its
result is never null/empty. -/
theorem extract_with_fallback_sentinel (e : scraper_utils.HtmlElement)
    (css : Str) (xp : Option Str) :
    (scraper_utils.cssYieldsNothing e css → scraper_utils.xpathYieldsNothing e xp →
      scraper_utils.extract_with_fallback e css xp = str "N/A") ∧
    scraper_utils.extract_with_fallback e css xp ≠ [] := by
  constructor
  · intro h1 h2
    unfold scraper_utils.extract_with_fallback
    rcases hsel : e.select_one css with u | o
    · rfl
    · rcases h1 with h | h | h <;> rw [hsel] at h
      · exact absurd h (by simp)
      · cases h
        cases xp with
        | none => rfl
        | some x =>
          by_cases hx : x.isEmpty
          · simp [hx]
          · rcases h2 x rfl (by simp_all) with hxp | ⟨l, hxp, hstrip⟩
            · simp [hx, hxp]
            · rcases l with _ | ⟨c, cs⟩
              · simp [hx, hxp]
              · simp only [hx, Bool.false_eq_true, if_false, hxp, List.isEmpty_cons,
                  if_false, hstrip, List.isEmpty_nil, if_true]
      · cases h
        simp
  · unfold scraper_utils.extract_with_fallback
    rcases hsel : e.select_one css with u | o
    · simp [str]
    · rcases o with _ | txt
      · rcases xp with _ | x
        · simp [str]
        · by_cases hx : x.isEmpty
          · simp [hx, str]
          · rcases hxp : e.xpath x with u | l
            · simp [hx, hxp, str]
            · by_cases hl : l.isEmpty
              · simp [hx, hxp, hl, str]
              · by_cases hj : (pyStrip (List.intercalate [' '] l)).isEmpty
                · simp [hx, hxp, hl, hj, str]
                · simp only [hx, hxp, hl, hj, Bool.false_eq_true, if_false]
                  simpa using hj
      · by_cases ht : txt.isEmpty
        · simp [ht, str]
        · simp only [ht, Bool.false_eq_true, if_false]
          simpa using ht

/-- Witness for C2 at a concrete element whose CSS selector finds nothing
and whose XPath query returns an empty list. -/
theorem extract_with_fallback_sentinel_witness :
    scraper_utils.extract_with_fallback
      ⟨fun _ => Except.ok none, fun _ => Except.ok []⟩
      (str "div.name") (some (str "//h1/text()")) = str "N/A" :=
  (extract_with_fallback_sentinel _ _ _).1
    (Or.inr (Or.inl rfl))
    (fun _ hx _ => by cases hx; exact Or.inr ⟨[], rfl, rfl⟩)

/-!
## C9 — the classification call in `extract_tool_details`
-/

/-- C9 (code bug): the classification step of `extract_tool_details` —
`categorize_tool(tool_data['full_description'])`, main.py line 376 — raises
`TypeError` on every invocation because the function requires two
arguments; evaluated here at a concrete failing input.  The enclosing
`try`/`except` then discards the whole tool record, so no category (default
or otherwise) is assigned, contrary to the claim. -/
theorem categorize_call_arity_bug :
    main.categorize_call_in_main (str "An AI advertising assistant") =
      Except.error (str "TypeError: categorize_tool() missing 1 required positional argument: 'description'") :=
  rfl

/-!
## C3 — checkpoint resume never reprocesses a URL
-/

theorem process_urls_fst {α : Type} (extract : Str → Option α) :
    ∀ (rest : List Str) (tools : List (Str × α)) (processed : List Str),
      (main.process_urls extract rest tools processed).1 =
        tools ++ rest.filterMap (fun u => (extract u).map (fun d => (u, d)))
  | [], tools, processed => by simp [main.process_urls]
  | u :: rest, tools, processed => by
    simp only [main.process_urls, List.filterMap_cons]
    cases h : extract u with
    | none => simp [h, process_urls_fst extract rest tools processed]
    | some d =>
      simp [h, process_urls_fst extract rest (tools ++ [(u, d)]) (processed ++ [u])]

theorem filterMap_pair_fst_sublist {α : Type} (extract : Str → Option α) :
    ∀ (l : List Str),
      List.Sublist ((l.filterMap (fun u => (extract u).map (fun d => (u, d)))).map Prod.fst) l
  | [] => by simp
  | u :: rest => by
    simp only [List.filterMap_cons]
    cases h : extract u with
    | none =>
      exact (filterMap_pair_fst_sublist extract rest).cons u
    | some d =>
      simpa using (filterMap_pair_fst_sublist extract rest).cons₂ u

/-- C3: after a checkpoint restart the loop iterates only over URLs not in
`processed_urls` (part one), and — given that discovered URLs are distinct
(they come from a Python set), that the checkpointed records have distinct
source URLs, and that each checkpointed record's URL was marked processed —
the final result list has no two records for the same source URL (part
two). -/
theorem resume_skips_processed_urls {α : Type} (extract : Str → Option α)
    (tool_urls : List Str) (tools₀ : List (Str × α)) (processed₀ : List Str)
    (hurls : tool_urls.Nodup) (hkeys : (tools₀.map Prod.fst).Nodup)
    (hmark : ∀ p ∈ tools₀, p.1 ∈ processed₀) :
    (∀ u ∈ tool_urls.filter (fun u => decide (u ∉ processed₀)), u ∉ processed₀) ∧
    ((main.scrape_tools_run extract tool_urls tools₀ processed₀).1.map Prod.fst).Nodup := by
  constructor
  · intro u hu
    have := List.of_mem_filter hu
    simpa using this
  · unfold main.scrape_tools_run
    rw [process_urls_fst, List.map_append]
    set remaining := tool_urls.filter (fun u => decide (u ∉ processed₀)) with hrem
    have hsub : List.Sublist ((remaining.filterMap
        (fun u => (extract u).map (fun d => (u, d)))).map Prod.fst) remaining :=
      filterMap_pair_fst_sublist extract remaining
    refine List.Nodup.append hkeys (hsub.nodup (hurls.filter _)) ?_
    intro a ha hb
    have ha' : a ∈ processed₀ := by
      rcases List.mem_map.mp ha with ⟨p, hp, rfl⟩
      exact hmark p hp
    have hb' : a ∈ remaining := hsub.subset hb
    have := List.of_mem_filter hb'
    simp at this
    exact this ha'

/-- Witness for C3 at a concrete checkpoint: URLs `a` and `c` discovered,
`c` already processed with its record checkpointed. -/
theorem resume_skips_processed_urls_witness :
    (∀ u ∈ [str "https://t/a", str "https://t/c"].filter
        (fun u => decide (u ∉ [str "https://t/c"])), u ∉ [str "https://t/c"]) ∧
    ((main.scrape_tools_run (fun u => some u)
        [str "https://t/a", str "https://t/c"]
        [(str "https://t/c", str "https://t/c")] [str "https://t/c"]).1.map
      Prod.fst).Nodup :=
  resume_skips_processed_urls (fun u => some u) _ _ _
    (by decide) (by decide) (by decide)

/-!
## C4 — logo candidate scoring and retention
-/

/-- C4 counterexample: in the primary scoring block a 10×10 candidate whose
URL contains `logo` scores 8 and is retained, although its longest side is
below 32 pixels — the claim's retention condition fails on the code. -/
theorem logo_size_filter_counterexample :
    (main.consider_primary (str "Tool")
        ⟨str "https://example.com/logo.png", str "", 10, 10⟩).isSome = true ∧
    ¬ main.claimed_retained (str "Tool")
        ⟨str "https://example.com/logo.png", str "", 10, 10⟩ := by
  constructor
  · norm_num +decide [main.consider_primary, main.primary_score, main.logo_terms,
      str, lower, hasSub, startsWith]
  · intro h
    rcases h with ⟨-, h32, -⟩
    norm_num at h32

/-- C4 (amended): the claimed score formula is exactly the primary block's
score, and retention works per block — the primary block (tool website)
retains a candidate iff its URL is non-empty, not a data-URI, and its score
exceeds 5 (no dimension filter); the fallback block (toolify.ai content)
additionally requires the longest side to be at least 32 pixels but scores
differently (`fallback_score`). -/
theorem logo_candidate_scoring_blocks (name : Str) (i : main.RawImg) :
    main.primary_score name i = main.claimed_logo_score name i ∧
    ((main.consider_primary name i).isSome ↔
      i.src.isEmpty = false ∧ startsWith (str "data:image/") i.src = false ∧
        main.claimed_logo_score name i > 5) ∧
    ((main.consider_fallback name i).isSome ↔
      i.src.isEmpty = false ∧ startsWith (str "data:image/") i.src = false ∧
        (32 : ℚ) ≤ max i.width i.height ∧ main.fallback_score name i > 5) := by
  have he : main.claimed_logo_score name i = main.primary_score name i := rfl
  refine ⟨rfl, ?_, ?_⟩
  · unfold main.consider_primary
    rw [he]
    by_cases h1 : i.src.isEmpty <;> by_cases h2 : startsWith (str "data:image/") i.src <;>
      by_cases h3 : main.primary_score name i > 5 <;>
        simp [h1, h2, h3]
  · unfold main.consider_fallback
    split_ifs with h1 h4
    · constructor
      · simp
      · rintro ⟨ha, hb, -⟩
        simp [ha, hb] at h1
    · constructor
      · simp
      · rintro ⟨-, -, hle, -⟩
        exact absurd h4 (not_lt.mpr hle)
    · by_cases h3 : main.fallback_score name i > 5
      · rw [if_pos h3]
        simp only [Option.isSome_some, true_iff]
        rw [Bool.or_eq_true] at h1
        push_neg at h1
        exact ⟨by simpa using h1.1, by simpa using h1.2, not_lt.mp h4, h3⟩
      · rw [if_neg h3]
        constructor
        · simp
        · rintro ⟨-, -, -, hgt⟩
          exact absurd hgt h3

/-!
## C7 — best-logo selection
-/

theorem sortKeyLE_trans (a b c : main.LogoCandidate) :
    main.sortKeyLE a b = true → main.sortKeyLE b c = true → main.sortKeyLE a c = true := by
  simp only [main.sortKeyLE, decide_eq_true_eq]
  rintro (h1 | ⟨h1, h1'⟩) (h2 | ⟨h2, h2'⟩)
  · exact Or.inl (h2.trans h1)
  · exact Or.inl (h2 ▸ h1)
  · exact Or.inl (h1 ▸ h2)
  · exact Or.inr ⟨h2.trans h1, h1'.trans h2'⟩

theorem sortKeyLE_total (a b : main.LogoCandidate) :
    (main.sortKeyLE a b || main.sortKeyLE b a) = true := by
  simp only [main.sortKeyLE, Bool.or_eq_true, decide_eq_true_eq]
  rcases Nat.lt_trichotomy a.score b.score with h | h | h
  · exact Or.inr (Or.inl h)
  · rcases le_total |a.width - a.height| |b.width - b.height| with h' | h'
    · exact Or.inl (Or.inr ⟨h.symm, h'⟩)
    · exact Or.inr (Or.inr ⟨h, h'⟩)
  · exact Or.inl (Or.inl h)

/-- C7: whenever `select_best` yields a candidate, that candidate belongs to
the list and ranks at least as high as every candidate under "descending
score, ties broken by ascending `|width - height|`"; and when no image
scores above 5, neither block produces a `logo_url`. -/
theorem best_logo_sort_order (cands : List main.LogoCandidate) (name : Str)
    (imgs : List main.RawImg) :
    (∀ b, main.select_best cands = some b →
      b ∈ cands ∧ ∀ c ∈ cands,
        c.score < b.score ∨
          (c.score = b.score ∧ |b.width - b.height| ≤ |c.width - c.height|)) ∧
    ((∀ i ∈ imgs, main.primary_score name i ≤ 5) → main.primary_logo name imgs = none) ∧
    ((∀ i ∈ imgs, main.fallback_score name i ≤ 5) → main.fallback_logo name imgs = none) := by
  refine ⟨?_, ?_, ?_⟩
  · intro b hb
    unfold main.select_best at hb
    split_ifs at hb with hne
    have hperm := List.mergeSort_perm cands main.sortKeyLE
    have hmem : b ∈ cands := by
      have := List.mem_of_mem_head? (by rw [hb]; exact rfl : b ∈ (cands.mergeSort main.sortKeyLE).head?)
      exact hperm.mem_iff.mp this
    refine ⟨hmem, ?_⟩
    intro c hc
    rcases hhead : cands.mergeSort main.sortKeyLE with _ | ⟨b', t⟩
    · rw [hhead] at hb
      simp at hb
    · rw [hhead] at hb
      simp only [List.head?_cons, Option.some.injEq] at hb
      have hsorted := List.sorted_mergeSort sortKeyLE_trans sortKeyLE_total cands
      rw [hhead] at hsorted
      have hc' : c ∈ b' :: t := by
        rw [← hhead]
        exact (List.mem_mergeSort).mpr hc
      rcases List.mem_cons.mp hc' with hcb | hct
      · rw [hcb, hb]
        exact Or.inr ⟨rfl, le_refl _⟩
      · have hle := (List.pairwise_cons.mp hsorted).1 c hct
        rw [hb] at hle
        simpa [main.sortKeyLE, decide_eq_true_eq] using hle
  · intro hlow
    unfold main.primary_logo
    have hnil : main.primary_candidates name imgs = [] := by
      unfold main.primary_candidates
      rw [List.filterMap_eq_nil_iff]
      intro i hi
      unfold main.consider_primary
      split_ifs with h1
      · rfl
      · exact if_neg (not_lt.mpr (hlow i hi))
    rw [hnil]
    rfl
  · intro hlow
    unfold main.fallback_logo
    have hnil : main.fallback_candidates name imgs = [] := by
      unfold main.fallback_candidates
      rw [List.filterMap_eq_nil_iff]
      intro i hi
      unfold main.consider_fallback
      split_ifs with h1 h4
      · rfl
      · rfl
      · exact if_neg (not_lt.mpr (hlow i hi))
    rw [hnil]
    rfl

/-- Witness for C7: a singleton candidate list is selected as is, and a
single sub-threshold image yields no logo in either block. -/
theorem best_logo_sort_order_witness :
    (⟨str "https://a", 7, 50, 10⟩ : main.LogoCandidate) ∈
        [(⟨str "https://a", 7, 50, 10⟩ : main.LogoCandidate)] ∧
    main.primary_logo (str "zq") [⟨str "https://e.com/a.png", str "", 100, 100⟩] = none ∧
    main.fallback_logo (str "zq") [⟨str "https://e.com/a.png", str "", 100, 100⟩] = none := by
  have h := best_logo_sort_order [⟨str "https://a", 7, 50, 10⟩] (str "zq")
    [⟨str "https://e.com/a.png", str "", 100, 100⟩]
  refine ⟨(h.1 _ (by simp [main.select_best])).1, h.2.1 ?_, h.2.2 ?_⟩
  · intro i hi
    rcases List.mem_singleton.mp hi with rfl
    norm_num +decide [main.primary_score, main.logo_terms, str, lower, hasSub]
  · intro i hi
    rcases List.mem_singleton.mp hi with rfl
    norm_num +decide [main.fallback_score, main.logo_terms, str, lower, hasSub]

/-!
## C1 — per-category score decomposition
-/

/-- C1 counterexample: for name `"brand"` and an empty description, the
category `"SEO Tools"` is assigned total score 2 (from the marketing-context
loop) although the sum of its keyword tier contributions is 0 — so the
total is not the keyword tier sum alone. -/
theorem categorize_score_counterexample :
    category_utils.category_score_of (str "brand") (str "") (str "SEO Tools") = some 2 ∧
    category_utils.claimed_score_of (str "brand") (str "") (str "SEO Tools") = some 0 ∧
    category_utils.category_score_of (str "brand") (str "") (str "SEO Tools") ≠
      category_utils.claimed_score_of (str "brand") (str "") (str "SEO Tools") := by
  refine ⟨?_, ?_, ?_⟩
  · norm_num +decide [category_utils.category_score_of, category_utils.category_total,
      category_utils.context_score, category_utils.keywords_score,
      category_utils.keyword_tier, category_utils.features_score,
      category_utils.clean_text, category_utils.CATEGORIES,
      category_utils.marketing_terms, category_utils.marketing_features, str,
      category_utils.combined_of, List.lookup]
  · norm_num +decide [category_utils.claimed_score_of, category_utils.claimed_tier_sum,
      category_utils.keyword_tier, category_utils.clean_text,
      category_utils.CATEGORIES, str, category_utils.combined_of, List.lookup]
  · norm_num +decide [category_utils.category_score_of, category_utils.claimed_score_of,
      category_utils.category_total, category_utils.claimed_tier_sum,
      category_utils.context_score, category_utils.keywords_score,
      category_utils.keyword_tier, category_utils.features_score,
      category_utils.clean_text, category_utils.CATEGORIES,
      category_utils.marketing_terms, category_utils.marketing_features, str,
      category_utils.combined_of, List.lookup]

/-- C1 (amended): each category's total score is the keyword tier sum
(exactly one tier contribution per `(keyword, weight)` pair, as the claim
states) plus 2 per marketing-context term present in the combined text plus
1 per marketing-feature term of that category present in the combined
text. -/
theorem categorize_score_decomposition (name description cat : Str) :
    category_utils.category_score_of name description cat =
      (List.lookup cat category_utils.CATEGORIES).map (fun kws =>
        category_utils.claimed_context_sum (category_utils.combined_of name description) +
        category_utils.claimed_tier_sum (category_utils.clean_text name)
          (category_utils.clean_text description)
          (category_utils.combined_of name description) kws +
        (match List.lookup cat category_utils.marketing_features with
         | some feats =>
            category_utils.claimed_feature_sum
              (category_utils.combined_of name description) feats
         | none => 0)) := by
  unfold category_utils.category_score_of
  cases List.lookup cat category_utils.CATEGORIES with
  | none => rfl
  | some kws =>
    simp only [Option.map_some']
    congr 1
    unfold category_utils.category_total
    rw [context_score_eq, keywords_score_eq]
    cases List.lookup cat category_utils.marketing_features with
    | none => rfl
    | some feats =>
      simp only [features_score_eq]

/-!
## C5 — behaviour below the score threshold
-/

/-- C5 counterexample: for name `""` and description `"document"` every
category score is below the threshold (the only match is Content Marketing
with score 1), yet `categorize_tool` returns `"Content Marketing"` — not
the designated default `"Marketing & Advertising"`. -/
theorem low_score_default_counterexample :
    category_utils.matches_list (category_utils.clean_text (str ""))
        (category_utils.clean_text (str "document"))
        (category_utils.combined_of (str "") (str "document")) =
      [(str "Content Marketing", 1)] ∧
    (1 : ℚ) < 3 ∧
    category_utils.categorize_tool (str "") (str "document") = str "Content Marketing" ∧
    str "Content Marketing" ≠ str "Marketing & Advertising" := by
  refine ⟨?_, by norm_num, ?_, by decide⟩
  · norm_num +decide [category_utils.matches_list, category_utils.category_total,
      category_utils.context_score, category_utils.keywords_score,
      category_utils.keyword_tier, category_utils.features_score,
      category_utils.clean_text, category_utils.CATEGORIES,
      category_utils.marketing_terms, category_utils.marketing_features, str,
      category_utils.combined_of, List.lookup]
  · norm_num +decide [category_utils.categorize_tool, category_utils.matches_list,
      category_utils.max_match, category_utils.category_total,
      category_utils.context_score, category_utils.keywords_score,
      category_utils.keyword_tier, category_utils.features_score,
      category_utils.clean_text, category_utils.CATEGORIES,
      category_utils.marketing_terms, category_utils.marketing_features,
      category_utils.doc_terms, str, category_utils.combined_of, List.lookup]

/-- C5 (amended): when every matched category's score is below the
threshold 3 (which also covers the no-positive-score case, where the match
list is empty), `categorize_tool` returns `"Content Marketing"` if some
category matched and the combined text contains one of `document`, `pdf`,
`text processing`, `convert`, and the default `"Marketing & Advertising"`
otherwise. -/
theorem low_score_default_category (name description : Str)
    (h : ∀ p ∈ category_utils.matches_list (category_utils.clean_text name)
        (category_utils.clean_text description)
        (category_utils.combined_of name description), p.2 < 3) :
    category_utils.categorize_tool name description =
      (if category_utils.matches_list (category_utils.clean_text name)
            (category_utils.clean_text description)
            (category_utils.combined_of name description) ≠ [] ∧
          category_utils.doc_terms.any
            (fun t => hasSub t (category_utils.combined_of name description)) then
        str "Content Marketing"
      else str "Marketing & Advertising") := by
  have hcomb : category_utils.clean_text name ++ ' ' :: category_utils.clean_text description =
      category_utils.combined_of name description := rfl
  simp only [category_utils.categorize_tool]
  rw [hcomb]
  cases hmm : category_utils.max_match
      (category_utils.matches_list (category_utils.clean_text name)
        (category_utils.clean_text description)
        (category_utils.combined_of name description)) with
  | none =>
    have hnil : category_utils.matches_list (category_utils.clean_text name)
        (category_utils.clean_text description)
        (category_utils.combined_of name description) = [] := by
      by_contra hne
      rcases List.exists_cons_of_ne_nil hne with ⟨m, ms, he⟩
      rw [he] at hmm
      simp [category_utils.max_match] at hmm
    simp [hnil]
  | some best =>
    have hlt : best.2 < 3 := h best (max_match_mem hmm)
    simp only []
    rw [if_neg (not_le.mpr hlt)]
    have hne : category_utils.matches_list (category_utils.clean_text name)
        (category_utils.clean_text description)
        (category_utils.combined_of name description) ≠ [] := by
      intro hnil
      rw [hnil] at hmm
      simp [category_utils.max_match] at hmm
    by_cases hdoc : category_utils.doc_terms.any
        (fun t => hasSub t (category_utils.combined_of name description))
    · simp [hdoc, hne]
    · simp [hdoc, hne]

/-- Witness for C5, applying the theorem at the concrete input
`("", "document")`, where the only match scores 1. -/
theorem low_score_default_category_witness :
    category_utils.categorize_tool (str "") (str "document") =
      (if category_utils.matches_list (category_utils.clean_text (str ""))
            (category_utils.clean_text (str "document"))
            (category_utils.combined_of (str "") (str "document")) ≠ [] ∧
          category_utils.doc_terms.any
            (fun t => hasSub t (category_utils.combined_of (str "") (str "document"))) then
        str "Content Marketing"
      else str "Marketing & Advertising") :=
  low_score_default_category (str "") (str "document") (by
    intro p hp
    have he : category_utils.matches_list (category_utils.clean_text (str ""))
        (category_utils.clean_text (str "document"))
        (category_utils.combined_of (str "") (str "document")) =
        [(str "Content Marketing", 1)] := by
      norm_num +decide [category_utils.matches_list, category_utils.category_total,
        category_utils.context_score, category_utils.keywords_score,
        category_utils.keyword_tier, category_utils.features_score,
        category_utils.clean_text, category_utils.CATEGORIES,
        category_utils.marketing_terms, category_utils.marketing_features, str,
        category_utils.combined_of, List.lookup]
    rw [he] at hp
    rcases List.mem_singleton.mp hp with rfl
    norm_num)

/-!
## C10 — `categorize_tool` is total over the taxonomy and the LLM branch is
unreachable
-/

/-- C10: `categorize_tool` always returns one of the eight taxonomy keys and
never `"Other"`, so `get_llm_category` always returns the keyword-based
category without consulting the LLM (for every possible LLM outcome). -/
theorem categorize_tool_total_no_llm (llm : Option Str) (name description : Str) :
    category_utils.categorize_tool name description ∈
        category_utils.CATEGORIES.map Prod.fst ∧
    category_utils.categorize_tool name description ≠ str "Other" ∧
    data_utils.get_llm_category llm name description =
      category_utils.categorize_tool name description := by
  have hmem : category_utils.categorize_tool name description ∈
      category_utils.CATEGORIES.map Prod.fst := by
    simp only [category_utils.categorize_tool]
    cases hmm : category_utils.max_match
        (category_utils.matches_list (category_utils.clean_text name)
          (category_utils.clean_text description)
          (category_utils.clean_text name ++ ' ' :: category_utils.clean_text description)) with
    | none =>
      simp only []
      decide
    | some best =>
      simp only []
      by_cases hge : best.2 ≥ 3
      · simp only [if_pos hge]
        exact mem_matches_keys (max_match_mem hmm)
      · rw [if_neg hge]
        split_ifs <;> decide
  have hother : category_utils.categorize_tool name description ≠ str "Other" := by
    intro hcontra
    rw [hcontra] at hmem
    revert hmem
    decide
  refine ⟨hmem, hother, ?_⟩
  unfold data_utils.get_llm_category
  simp [hother]

/-!
## C6 — missing anchors yield empty sections
-/

theorem reScan_eq_some {α : Type} {m : Str → Option α} :
    ∀ {l : Str} {r : α}, data_utils.reScan m l = some r → ∃ t, t <:+ l ∧ m t = some r
  | [], r, h => ⟨[], List.suffix_refl _, h⟩
  | c :: cs, r, h => by
    rw [data_utils.reScan] at h
    cases hm : m (c :: cs) with
    | some r' =>
      rw [hm] at h
      cases h
      exact ⟨c :: cs, List.suffix_refl _, hm⟩
    | none =>
      rw [hm] at h
      rcases reScan_eq_some h with ⟨t, ht, hmt⟩
      exact ⟨t, ht.trans (List.suffix_cons c cs), hmt⟩

theorem matchUseCasesAt_anchor {t g : Str} (h : data_utils.matchUseCasesAt t = some g) :
    startsCI (str "use cases") t = true := by
  by_cases hc : startsCI (str "use cases") t
  · exact hc
  · rw [data_utils.matchUseCasesAt, if_neg hc] at h
    cases h

theorem matchFeaturesAt_anchor {t g : Str} (h : data_utils.matchFeaturesAt t = some g) :
    startsCI (str "core features") t = true := by
  by_cases hc : startsCI (str "core features") t
  · exact hc
  · rw [data_utils.matchFeaturesAt, if_neg hc] at h
    cases h

theorem matchShortAt_anchor {t g : Str} (h : data_utils.matchShortAt t = some g) :
    startsCI (str "what is ") t = true := by
  by_cases hc : startsCI (str "what is ") t
  · exact hc
  · rw [data_utils.matchShortAt, if_neg hc] at h
    cases h

theorem anchor_found_sub {anchor d t : Str} (ht : t <:+ d)
    (hs : startsCI anchor t = true) : lower anchor <:+: lower d := by
  have h1 : lower anchor <+: lower t := by
    simpa [startsCI, startsWith] using hs
  have h2 : lower t <:+ lower d := List.IsSuffix.map Char.toLower ht
  exact ( List.IsPrefix.isInfix h1).trans ( List.IsSuffix.isInfix h2)

/-- C6: a description with no case-insensitive `use cases` anchor yields an
empty `use_cases` list, one with no `core features` anchor yields an empty
`features` list, and one with no `what is` anchor yields an empty
`short_description`; the parser itself is a total function (no exception
can escape). -/
theorem description_parts_missing_anchors (d : Str) :
    (¬ lower (str "use cases") <:+: lower d →
      (data_utils.extract_description_parts d).use_cases = []) ∧
    (¬ lower (str "core features") <:+: lower d →
      (data_utils.extract_description_parts d).features = []) ∧
    (¬ lower (str "what is") <:+: lower d →
      (data_utils.extract_description_parts d).short_description = []) := by
  by_cases hd : d.isEmpty
  · rw [data_utils.extract_description_parts, if_pos hd]
    exact ⟨fun _ => rfl, fun _ => rfl, fun _ => rfl⟩
  · refine ⟨?_, ?_, ?_⟩
    · intro hno
      rw [data_utils.extract_description_parts, if_neg hd]
      cases hscan : data_utils.reScan data_utils.matchUseCasesAt d with
      | none => simp [hscan]
      | some g =>
        exfalso
        rcases reScan_eq_some hscan with ⟨t, ht, hm⟩
        exact hno (anchor_found_sub ht (matchUseCasesAt_anchor hm))
    · intro hno
      rw [data_utils.extract_description_parts, if_neg hd]
      cases hscan : data_utils.reScan data_utils.matchFeaturesAt d with
      | none => simp [hscan]
      | some g =>
        exfalso
        rcases reScan_eq_some hscan with ⟨t, ht, hm⟩
        exact hno (anchor_found_sub ht (matchFeaturesAt_anchor hm))
    · intro hno
      rw [data_utils.extract_description_parts, if_neg hd]
      cases hscan : data_utils.reScan data_utils.matchShortAt d with
      | none => simp [hscan]
      | some g =>
        exfalso
        rcases reScan_eq_some hscan with ⟨t, ht, hm⟩
        apply hno
        have hfull := anchor_found_sub ht (matchShortAt_anchor hm)
        have hpre : lower (str "what is") <+: lower (str "what is ") := by decide
        exact ( List.IsPrefix.isInfix hpre).trans hfull

/-- Witness for C6 at a description containing none of the anchors. -/
theorem description_parts_missing_anchors_witness :
    (data_utils.extract_description_parts (str "hello world")).use_cases = [] ∧
    (data_utils.extract_description_parts (str "hello world")).features = [] ∧
    (data_utils.extract_description_parts (str "hello world")).short_description = [] := by
  have h := description_parts_missing_anchors (str "hello world")
  exact ⟨h.1 (by decide), h.2.1 (by decide), h.2.2 (by decide)⟩

/-!
## C8 — clean_url invariants
-/

theorem dropWhile_eq_self_of_head {p : Char → Bool} :
    ∀ {l : Str}, (∀ c, l.head? = some c → p c = false) → l.dropWhile p = l
  | [], _ => rfl
  | a :: l, h => by
    rw [List.dropWhile_cons, if_neg (by simp [h a rfl])]

theorem head_not_of_dropWhile {p : Char → Bool} :
    ∀ {l : Str} {c : Char}, (l.dropWhile p).head? = some c → p c = false
  | [], c, h => by simp at h
  | a :: l, c, h => by
    rw [List.dropWhile_cons] at h
    by_cases hp : p a
    · rw [if_pos hp] at h
      exact head_not_of_dropWhile h
    · rw [if_neg hp] at h
      simp only [List.head?_cons, Option.some.injEq] at h
      subst h
      simpa using hp

theorem pyStrip_eq_self {l : Str} (h1 : ∀ c, l.head? = some c → pyWS c = false)
    (h2 : ∀ c, l.getLast? = some c → pyWS c = false) : pyStrip l = l := by
  unfold pyStrip
  rw [dropWhile_eq_self_of_head h1]
  rw [dropWhile_eq_self_of_head (fun c hc => h2 c (by rwa [List.head?_reverse] at hc))]
  exact List.reverse_reverse l

theorem pyStrip_getLast {l : Str} {c : Char} (h : (pyStrip l).getLast? = some c) :
    pyWS c = false := by
  unfold pyStrip at h
  rw [List.getLast?_reverse] at h
  exact head_not_of_dropWhile h

theorem pyStrip_head {l : Str} {c : Char} (h : (pyStrip l).head? = some c) :
    pyWS c = false := by
  unfold pyStrip at h
  rw [List.head?_reverse] at h
  have hsuf : ((l.dropWhile pyWS).reverse.dropWhile pyWS) <:+ (l.dropWhile pyWS).reverse :=
    List.dropWhile_suffix pyWS
  rcases hsuf with ⟨s, hs⟩
  have heq : ((l.dropWhile pyWS).reverse.dropWhile pyWS).getLast? =
      ((l.dropWhile pyWS).reverse).getLast? := by
    conv_rhs => rw [← hs]
    rw [List.getLast?_append, h]
    rfl
  rw [heq, List.getLast?_reverse] at h
  exact head_not_of_dropWhile h

theorem pyStrip_idem (l : Str) : pyStrip (pyStrip l) = pyStrip l :=
  pyStrip_eq_self (fun _ hc => pyStrip_head hc) (fun _ hc => pyStrip_getLast hc)

theorem sub_dropWhile {p : Char → Bool} {pat : Str} (hne : pat ≠ [])
    (hchar : ∀ c ∈ pat, p c = false) (l : Str) :
    pat <:+: l → pat <:+: l.dropWhile p := by
  induction l with
  | nil => intro h; simpa using h
  | cons a l ih =>
    intro h
    rw [List.dropWhile_cons]
    by_cases hp : p a
    · rw [if_pos hp]
      rcases List.infix_cons_iff.mp h with hpre | hinf
      · exfalso
        cases pat with
        | nil => exact hne rfl
        | cons q qs =>
          rcases List.cons_prefix_cons.mp hpre with ⟨rfl, -⟩
          have hq := hchar q (List.mem_cons_self q qs)
          simp [hq] at hp
      · exact ih hinf
    · rw [if_neg hp]
      exact h

theorem sub_pyStrip {pat : Str} (hne : pat ≠ [])
    (hchar : ∀ c ∈ pat, pyWS c = false) {l : Str}
    (h : pat <:+: l) : pat <:+: pyStrip l := by
  unfold pyStrip
  have h1 : pat <:+: l.dropWhile pyWS := sub_dropWhile hne hchar l h
  have h2 : pat.reverse <:+: (l.dropWhile pyWS).reverse := List.reverse_infix.mpr h1
  have h3 : pat.reverse <:+: ((l.dropWhile pyWS).reverse.dropWhile pyWS) :=
    sub_dropWhile (by simpa using hne)
      (fun c hc => hchar c (by simpa using hc)) _ h2
  have h4 := List.reverse_infix.mpr h3
  simpa using h4

theorem prefix_split {α : Type} :
    ∀ (A : List α) {pat B : List α}, pat <+: A ++ B →
      pat <+: A ∨ ∃ t, pat = A ++ t ∧ t <+: B
  | [], pat, B, h => Or.inr ⟨pat, rfl, h⟩
  | a :: A, pat, B, h => by
    cases pat with
    | nil => exact Or.inl List.nil_prefix
    | cons q qs =>
      rw [List.cons_append] at h
      rcases List.cons_prefix_cons.mp h with ⟨rfl, hqs⟩
      rcases prefix_split A hqs with h' | ⟨t, rfl, ht⟩
      · exact Or.inl (List.cons_prefix_cons.mpr ⟨rfl, h'⟩)
      · exact Or.inr ⟨t, (List.cons_append q A t).symm, ht⟩

theorem sub_append_split {α : Type} :
    ∀ (A : List α) {pat B : List α}, pat <:+: A ++ B →
      pat <:+: B ∨ ∃ A', A' <:+ A ∧ A' ≠ [] ∧ pat <+: A' ++ B
  | [], pat, B, h => Or.inl (by simpa using h)
  | a :: A, pat, B, h => by
    rw [List.cons_append] at h
    rcases List.infix_cons_iff.mp h with hpre | hinf
    · exact Or.inr ⟨a :: A, List.suffix_refl _, by simp, by rwa [List.cons_append]⟩
    · rcases sub_append_split A hinf with h' | ⟨A', hA, hne, hp⟩
      · exact Or.inl h'
      · exact Or.inr ⟨A', hA.trans (List.suffix_cons a A), hne, hp⟩

theorem no_asset_in_prefixed {s : Str}
    (hs : ¬ data_utils.defaultLogoAsset <:+: s) :
    ¬ data_utils.defaultLogoAsset <:+: str "https://www.toolify.ai" ++ s := by
  intro h
  rcases sub_append_split (str "https://www.toolify.ai") h with h' | ⟨A', hA, hne, hp⟩
  · exact hs h'
  · have hmem : A' ∈ (str "https://www.toolify.ai").tails := (List.mem_tails _ _).mpr hA
    rcases prefix_split A' hp with hpa | ⟨t, hpat, ht⟩
    · exact
        (by decide : ∀ x ∈ (str "https://www.toolify.ai").tails,
          ¬ data_utils.defaultLogoAsset <+: x) A' hmem hpa
    · exact
        (by decide : ∀ x ∈ (str "https://www.toolify.ai").tails,
          x ≠ [] → ¬ x <+: data_utils.defaultLogoAsset) A' hmem hne ⟨t, hpat.symm⟩

theorem startsWith_mono {a b l : Str} (hab : a <+: b)
    (h : startsWith b l = true) : startsWith a l = true :=
  startsWith_iff.mpr (hab.trans (startsWith_iff.mp h))

theorem startsWith_ne_nil {c : Char} {p l : Str}
    (h : startsWith (c :: p) l = true) : l ≠ [] := by
  rcases startsWith_iff.mp h with ⟨t, rfl⟩
  simp

theorem not_startsWith_of_head {c c' : Char} {p l : Str} (hl : l.head? = some c')
    (hcc : c ≠ c') : startsWith (c :: p) l = false := by
  cases hsw : startsWith (c :: p) l
  · rfl
  · have hh := startsWith_head hsw (List.head?_cons)
    rw [hl] at hh
    cases hh
    exact absurd rfl hcc

theorem slash_prefixed (s : Str) :
    startsWith (str "/") (str "https://www.toolify.ai" ++ s) = false := rfl

theorem dslash_prefixed (s : Str) :
    startsWith (str "//") (str "https://www.toolify.ai" ++ s) = false := rfl

theorem https_prefixed (s : Str) :
    startsWith (str "https://") (str "https://www.toolify.ai" ++ s) = true := rfl

theorem clean_url_characterization (u : Str) :
    (data_utils.clean_url u = [] ∧
      (startsWith (str "/") (pyStrip u) = false ∨
        data_utils.defaultLogoAsset <:+: pyStrip u)) ∨
    (data_utils.clean_url u = pyStrip u ∧
      ¬ data_utils.defaultLogoAsset <:+: pyStrip u ∧
      startsWith (str "/") (pyStrip u) = false ∧
      (startsWith (str "http://") (pyStrip u) = true ∨
        startsWith (str "https://") (pyStrip u) = true)) ∨
    (data_utils.clean_url u = str "https://www.toolify.ai" ++ pyStrip u ∧
      ¬ data_utils.defaultLogoAsset <:+: pyStrip u ∧
      startsWith (str "/") (pyStrip u) = true ∧ pyStrip u ≠ []) := by
  by_cases hu : u.isEmpty
  · left
    constructor
    · simp only [data_utils.clean_url, if_pos hu]
    · left
      have : u = [] := by simpa using hu
      subst this
      rfl
  · simp only [data_utils.clean_url, if_neg hu]
    by_cases hpat : data_utils.defaultLogoAsset <:+: pyStrip u
    · left
      rw [if_pos (show hasSub data_utils.defaultLogoAsset (pyStrip u) = true by
        simpa [hasSub] using hpat)]
      exact ⟨rfl, Or.inr hpat⟩
    · rw [if_neg (show ¬ hasSub data_utils.defaultLogoAsset (pyStrip u) = true by
        simpa [hasSub] using hpat)]
      by_cases hsl : startsWith (str "/") (pyStrip u)
      · right; right
        rw [if_pos hsl]
        rw [if_neg (show ¬ startsWith (str "//")
            (str "https://www.toolify.ai" ++ pyStrip u) = true by
          simp [dslash_prefixed])]
        rw [if_pos (show (startsWith (str "http://")
              (str "https://www.toolify.ai" ++ pyStrip u) ||
            startsWith (str "https://")
              (str "https://www.toolify.ai" ++ pyStrip u)) = true by
          simp [https_prefixed])]
        exact ⟨rfl, hpat, hsl, startsWith_ne_nil hsl⟩
      · have h2 : startsWith (str "//") (pyStrip u) = false := by
          cases hsw : startsWith (str "//") (pyStrip u)
          · rfl
          · exact absurd
              (startsWith_mono (show str "/" <+: str "//" by decide) hsw)
              (by simp [hsl])
        rw [if_neg hsl,
          if_neg (show ¬ startsWith (str "//") (pyStrip u) = true by simp [h2])]
        by_cases hfin : (startsWith (str "http://") (pyStrip u) ||
            startsWith (str "https://") (pyStrip u)) = true
        · right; left
          rw [if_pos hfin]
          exact ⟨rfl, hpat, by simpa using hsl, by simpa using hfin⟩
        · left
          rw [if_neg hfin]
          exact ⟨rfl, Or.inl (by simpa using hsl)⟩

/-- C8: `clean_url` is idempotent; its result is always empty or begins with
`http://`/`https://`; site-relative (stripped) inputs become absolute on the
`https://www.toolify.ai` host; and any input containing the placeholder logo
asset `logo.f3a91ce.png` normalizes to the empty string. -/
theorem clean_url_invariants (u : Str) :
    data_utils.clean_url (data_utils.clean_url u) = data_utils.clean_url u ∧
    (data_utils.clean_url u = [] ∨
      startsWith (str "http://") (data_utils.clean_url u) = true ∨
      startsWith (str "https://") (data_utils.clean_url u) = true) ∧
    (startsWith (str "/") (pyStrip u) = true →
      ¬ data_utils.defaultLogoAsset <:+: pyStrip u →
      data_utils.clean_url u = str "https://www.toolify.ai" ++ pyStrip u) ∧
    (data_utils.defaultLogoAsset <:+: u → data_utils.clean_url u = []) := by
  refine ⟨?_, ?_, ?_, ?_⟩
  · rcases clean_url_characterization u with ⟨h0, -⟩ | ⟨hres, hnp, hsl, hhttp⟩ |
      ⟨hres, hnp, hsl, hsne⟩
    · rw [h0]
      rfl
    · rw [hres]
      have hne : pyStrip u ≠ [] := by
        rcases hhttp with h | h
        · exact startsWith_ne_nil h
        · exact startsWith_ne_nil h
      have hid : pyStrip (pyStrip u) = pyStrip u := pyStrip_idem u
      have h2 : startsWith (str "//") (pyStrip u) = false := by
        cases hsw : startsWith (str "//") (pyStrip u)
        · rfl
        · exact absurd
            (startsWith_mono (show str "/" <+: str "//" by decide) hsw)
            (by simp [hsl])
      simp only [data_utils.clean_url]
      rw [if_neg (show ¬ (pyStrip u).isEmpty = true by simpa using hne), hid]
      rw [if_neg (show ¬ hasSub data_utils.defaultLogoAsset (pyStrip u) = true by
        simpa [hasSub] using hnp)]
      rw [if_neg (show ¬ startsWith (str "/") (pyStrip u) = true by simp [hsl])]
      rw [if_neg (show ¬ startsWith (str "//") (pyStrip u) = true by simp [h2])]
      rw [if_pos (show (startsWith (str "http://") (pyStrip u) ||
          startsWith (str "https://") (pyStrip u)) = true by
        rcases hhttp with h | h <;> simp [h])]
    · rw [hres]
      have hh : (str "https://www.toolify.ai" ++ pyStrip u).head? = some 'h' := rfl
      have hrne : str "https://www.toolify.ai" ++ pyStrip u ≠ [] := by
        intro hc
        rw [hc] at hh
        cases hh
      have hstrip : pyStrip (str "https://www.toolify.ai" ++ pyStrip u) =
          str "https://www.toolify.ai" ++ pyStrip u := by
        refine pyStrip_eq_self ?_ ?_
        · intro c hc
          rw [hh] at hc
          cases hc
          decide
        · intro c hc
          rw [List.getLast?_append_of_ne_nil _ hsne] at hc
          exact pyStrip_getLast hc
      have hnpr := no_asset_in_prefixed hnp
      simp only [data_utils.clean_url]
      rw [if_neg (show ¬ (str "https://www.toolify.ai" ++ pyStrip u).isEmpty = true by
        simpa using hrne), hstrip]
      rw [if_neg (show ¬ hasSub data_utils.defaultLogoAsset
          (str "https://www.toolify.ai" ++ pyStrip u) = true by
        simpa [hasSub] using hnpr)]
      rw [if_neg (show ¬ startsWith (str "/")
          (str "https://www.toolify.ai" ++ pyStrip u) = true by simp [slash_prefixed])]
      rw [if_neg (show ¬ startsWith (str "//")
          (str "https://www.toolify.ai" ++ pyStrip u) = true by simp [dslash_prefixed])]
      rw [if_pos (show (startsWith (str "http://")
            (str "https://www.toolify.ai" ++ pyStrip u) ||
          startsWith (str "https://")
            (str "https://www.toolify.ai" ++ pyStrip u)) = true by
        simp [https_prefixed])]
  · rcases clean_url_characterization u with ⟨h0, -⟩ | ⟨hres, -, -, hhttp⟩ | ⟨hres, -, -, -⟩
    · exact Or.inl h0
    · rw [hres]
      rcases hhttp with h | h
      · exact Or.inr (Or.inl h)
      · exact Or.inr (Or.inr h)
    · rw [hres]
      exact Or.inr (Or.inr (https_prefixed _))
  · intro hsl hnpat
    rcases clean_url_characterization u with ⟨-, hflag⟩ | ⟨-, -, hsl', -⟩ | ⟨hres, -, -, -⟩
    · rcases hflag with hf | hf
      · rw [hsl] at hf
        cases hf
      · exact absurd hf hnpat
    · rw [hsl] at hsl'
      cases hsl'
    · exact hres
  · intro hin
    by_cases hu : u.isEmpty
    · simp only [data_utils.clean_url, if_pos hu]
    · have hs : data_utils.defaultLogoAsset <:+: pyStrip u :=
        sub_pyStrip (by decide) (by decide) hin
      simp only [data_utils.clean_url, if_neg hu]
      rw [if_pos (show hasSub data_utils.defaultLogoAsset (pyStrip u) = true by
        simpa [hasSub] using hs)]

/-- Witness for C8: a relative path becomes absolute and is a fixed point,
and an input containing the placeholder asset is discarded. -/
theorem clean_url_invariants_witness :
    data_utils.clean_url (data_utils.clean_url (str "/img/a.png")) =
      data_utils.clean_url (str "/img/a.png") ∧
    data_utils.clean_url (str "/img/a.png") =
      str "https://www.toolify.ai" ++ pyStrip (str "/img/a.png") ∧
    data_utils.clean_url (str "x logo.f3a91ce.png") = [] :=
  ⟨(clean_url_invariants (str "/img/a.png")).1,
   (clean_url_invariants (str "/img/a.png")).2.2.1 (by decide) (by decide),
   (clean_url_invariants (str "x logo.f3a91ce.png")).2.2.2 (by decide)⟩
